import Mathlib

/-!
# Verification of the opportunity-matching subsystem

Shallow embedding of `opportunity_matcher.py` and `personalized_opportunities.py`
from the community-platform repository, together with proofs of the spec's claims
about the two match scorers, the recommendation rankers and the opportunity
lifecycle.

Conventions of the embedding:
* Python floats are modelled as `ℚ`.  Every arithmetic expression the claims
  touch is a sum/quotient of small integer-valued terms, where exact rational
  arithmetic and IEEE-754 double arithmetic agree on all the comparisons and
  truncations involved.
* `difflib.SequenceMatcher(None, a, b).ratio()` is a Python standard-library
  function external to the repository; it is modelled as an explicit function
  argument `sim : String → String → ℚ`, and theorems that need it assume its
  documented range `[0, 1]`.
* `random.randint(-3, 3)` is modelled as an explicit jitter argument.
* The Firebase realtime database is modelled as explicit state: a per-community
  list of opportunity records in push (key) order, passed in and returned.
* Python's stable `list.sort(key=...)` is modelled by `List.insertionSort r`
  where `r a b` holds iff `key a ≤ key b`; Mathlib's `orderedInsert` places an
  element before the first entry that is not `≼`-below it, which is exactly the
  stable behaviour.
-/

/-- Python `l[-n:]`: the last `n` elements of a list. -/
def pyLastN (n : ℕ) (l : List α) : List α := l.drop (l.length - n)

/-- Python `a in b` for strings: `a` occurs as a contiguous substring of `b`. -/
def pyIn (a b : String) : Bool := b.data.tails.any (fun t => a.data.isPrefixOf t)

/-- Python `" ".join(xs)`. -/
def joinSpace (xs : List String) : String := String.intercalate " " xs

/-- Python `s.lower()`, modelled as per-character ASCII case folding
(`Char.toLower`), which agrees with Python on all-ASCII data. -/
def pyLower (s : String) : String := ⟨s.data.map Char.toLower⟩

/-- Python `s.strip()`: drop leading and trailing whitespace. -/
def pyStrip (s : String) : String :=
  ⟨((s.data.dropWhile Char.isWhitespace).reverse.dropWhile Char.isWhitespace).reverse⟩

/-- A user profile record as written by `update_user_profile`
(`opportunity_matcher.py`, lines 156-164) and consumed by both scorers. -/
structure UserProfile where
  username : String := ""
  skills : List String := []
  interests : List String := []
  tags : List String := []
  bio : String := ""
  metadata : List (String × String) := []
  updated_at : String := ""
deriving Repr, DecidableEq

/-- A dynamic (community-submitted) opportunity record as built by
`add_opportunity` (`opportunity_matcher.py`, lines 53-65). -/
structure Opp where
  id : String := ""
  title : String := ""
  description : String := ""
  category : String := ""
  tags : List String := []
  requirements : List String := []
  deadline : Option String := none
  posted_by : Option String := none
  metadata : List (String × String) := []
  created_at : String := ""
  status : String := "active"
deriving Repr, DecidableEq

/-- A static-catalog opportunity template, the record shape of the entries of
`OPPORTUNITY_DATABASE` (`personalized_opportunities.py`, lines 10-315).  A key
missing from the Python dict behaves, under the truthiness guards of the
scorer, exactly like the empty list / empty string, which is how absence is
modelled here. -/
structure OppTemplate where
  title : String := ""
  type : String := ""
  category : String := ""
  skills : List String := []
  interests : List String := []
  tags : List String := []
  description : String := ""
  company : String := ""
  urgency_days : ℕ := 0
deriving Repr, DecidableEq

/-! ## 4.1 Dynamic-catalog scorer (`opportunity_matcher.calculate_match_score`) -/

/-- The lower-cased set `set([x.lower() for x in l])`. -/
def lowerSet (l : List String) : Finset String := (l.map pyLower).toFinset

/-- Skills component of the dynamic scorer (`opportunity_matcher.py`,
lines 234-238): `skills_overlap / len(opp_requirements) * 0.4`, skipped when
the opportunity declares no requirements. -/
def skillsComponent (opportunity : Opp) (user_profile : UserProfile) : ℚ :=
  let opp_requirements := lowerSet opportunity.requirements
  let user_skills := lowerSet user_profile.skills
  if opp_requirements ≠ ∅ then
    ((user_skills ∩ opp_requirements).card : ℚ) / (opp_requirements.card : ℚ) * 0.4
  else 0

/-- Interests component of the dynamic scorer (`opportunity_matcher.py`,
lines 240-244). -/
def interestComponent (opportunity : Opp) (user_profile : UserProfile) : ℚ :=
  let opp_tags := lowerSet opportunity.tags
  let user_interests := lowerSet user_profile.interests
  if opp_tags ≠ ∅ then
    ((user_interests ∩ opp_tags).card : ℚ) / (opp_tags.card : ℚ) * 0.3
  else 0

/-- Activity component of the dynamic scorer (`opportunity_matcher.py`,
lines 246-250): similarity of the joined last-20 activity contents against the
lower-cased description.  `sim` stands for the external
`difflib.SequenceMatcher(None, ·, ·).ratio()`. -/
def activityComponent (sim : String → String → ℚ) (opportunity : Opp)
    (user_activity : List String) : ℚ :=
  if user_activity ≠ [] then
    sim (pyLower (joinSpace (pyLastN 20 user_activity))) (pyLower opportunity.description) * 0.2
  else 0

/-- Bio component of the dynamic scorer (`opportunity_matcher.py`,
lines 252-256). -/
def bioComponent (sim : String → String → ℚ) (opportunity : Opp)
    (user_profile : UserProfile) : ℚ :=
  if pyLower user_profile.bio ≠ "" then
    sim (pyLower user_profile.bio) (pyLower opportunity.description) * 0.1
  else 0

/-- `calculate_match_score` of `opportunity_matcher.py` (lines 216-258): a
weighted sum of the four guarded components, clamped by `min(score, 1.0)`.
`user_activity` is the list of the `content` fields of the activity records
(the only field the function reads). -/
def calculate_match_score (sim : String → String → ℚ) (opportunity : Opp)
    (user_profile : UserProfile) (user_activity : List String) : ℚ :=
  min (skillsComponent opportunity user_profile
      + interestComponent opportunity user_profile
      + activityComponent sim opportunity user_activity
      + bioComponent sim opportunity user_profile) 1

/-! ## 4.2 Tag-weighted scorer (`personalized_opportunities.calculate_match_score`) -/

/-- `s.lower().strip()` applied to every entry, as for user skills, interests
and tags (`personalized_opportunities.py`, lines 327-334). -/
def lowerStripAll (l : List String) : List String :=
  l.map (fun s => pyStrip (pyLower s))

/-- The running `(score, max_score)` pair of the tag-weighted scorer after the
four guarded blocks (`personalized_opportunities.py`, lines 323-365). -/
def scoreAndMax (user_profile : UserProfile) (opportunity : OppTemplate) : ℚ × ℚ :=
  let user_skills := lowerStripAll user_profile.skills
  let user_interests := lowerStripAll user_profile.interests
  let user_bio := pyLower user_profile.bio
  let user_tags := lowerStripAll user_profile.tags
  -- tag matching (50), only if both the opportunity and the user have tags
  let p1 : ℚ × ℚ :=
    if opportunity.tags ≠ [] ∧ user_tags ≠ [] then
      let opp_tags := opportunity.tags.map pyLower
      let tag_matches := user_tags.countP (fun tag => decide (tag ∈ opp_tags))
      ((tag_matches : ℚ) / (opp_tags.length : ℚ) * 50, 50)
    else (0, 0)
  -- skills matching (25), substring-in-either-direction
  let p2 : ℚ × ℚ :=
    if opportunity.skills ≠ [] then
      let opp_skills := opportunity.skills.map pyLower
      let skill_matches := user_skills.countP
        (fun skill => opp_skills.any (fun o => pyIn o skill || pyIn skill o))
      (if user_skills ≠ [] then (skill_matches : ℚ) / (opp_skills.length : ℚ) * 25 else 0, 25)
    else (0, 0)
  -- interests matching (15)
  let p3 : ℚ × ℚ :=
    if opportunity.interests ≠ [] then
      let opp_interests := opportunity.interests.map pyLower
      let interest_matches := user_interests.countP
        (fun interest => opp_interests.any (fun o => pyIn o interest || pyIn interest o))
      (if user_interests ≠ [] then
        (interest_matches : ℚ) / (opp_interests.length : ℚ) * 15 else 0, 15)
    else (0, 0)
  -- bio keyword matching (10): raw opportunity tags as substrings of the bio
  let p4 : ℚ × ℚ :=
    if user_bio ≠ "" ∧ opportunity.tags ≠ [] then
      let bio_matches := opportunity.tags.countP (fun tag => pyIn tag user_bio)
      ((bio_matches : ℚ) / (opportunity.tags.length : ℚ) * 10, 10)
    else (0, 0)
  (p1.1 + p2.1 + p3.1 + p4.1, p1.2 + p2.2 + p3.2 + p4.2)

/-- The pre-jitter result of the tag-weighted scorer
(`personalized_opportunities.py`, lines 367-371): Python's
`int((score / max_score) * 100)`, which truncates toward zero — for the
non-negative values arising here, the floor. -/
def preJitterScore (user_profile : UserProfile) (opportunity : OppTemplate) : ℤ :=
  let sm := scoreAndMax user_profile opportunity
  if sm.2 > 0 then ⌊sm.1 / sm.2 * 100⌋ else 0

/-- `calculate_match_score` of `personalized_opportunities.py` (lines 318-376);
`jitter` stands for the sampled `random.randint(-3, 3)`.  The result is
`max(0, min(100, final_score + jitter))`. -/
def calculate_match_score_tagged (jitter : ℤ) (user_profile : UserProfile)
    (opportunity : OppTemplate) : ℤ :=
  max 0 (min 100 (preJitterScore user_profile opportunity + jitter))

/-! ## Opportunity lifecycle (`opportunity_matcher.py`, storage section)

The Firebase realtime database's per-community opportunity collections are
modelled as a map from community name to the list of pushed records in key
order (`push` appends; `order_by_key` returns that order).  The embedding
models the success path of each operation; the `try/except` wrappers only
convert collaborator outages into default returns and play no role in the
claims below. -/

/-- The per-community opportunity collections (`opportunities/{community}`). -/
def OppStore := String → List Opp

/-- `add_opportunity` (`opportunity_matcher.py`, lines 18-74): builds the
record with `status = "active"` and pushes it onto the community's collection.
The generated `uuid4` and `datetime.now().isoformat()` are passed in as
`newId` and `now`.  Returns the new opportunity's id and the updated store. -/
def add_opportunity (community title description category : String)
    (tags requirements : List String) (deadline posted_by : Option String)
    (metadata : List (String × String)) (newId now : String)
    (store : OppStore) : String × OppStore :=
  let opportunity : Opp :=
    { id := newId, title := title, description := description,
      category := category, tags := tags, requirements := requirements,
      deadline := deadline, posted_by := posted_by, metadata := metadata,
      created_at := now, status := "active" }
  (newId, fun c => if c = community then store c ++ [opportunity] else store c)

/-- Sort relation for `opportunities.sort(key=lambda x: x.get("created_at", ""),
reverse=True)`: `a` may stably precede `b` iff `created_at a ≥ created_at b`. -/
def createdDesc (a b : Opp) : Prop := b.created_at ≤ a.created_at

instance : DecidableRel createdDesc := fun a b =>
  inferInstanceAs (Decidable (b.created_at ≤ a.created_at))

instance : IsTotal Opp createdDesc :=
  ⟨fun a b => le_total b.created_at a.created_at⟩

instance : IsTrans Opp createdDesc :=
  ⟨fun _ _ _ h1 h2 => le_trans h2 h1⟩

/-- `get_opportunities` (`opportunity_matcher.py`, lines 77-107): the last
`limit` records in key order, filtered by exact status unless `status = "all"`,
then stably sorted by `created_at` descending. -/
def get_opportunities (community status : String) (limit : ℕ)
    (store : OppStore) : List Opp :=
  let data := pyLastN limit (store community)
  let opportunities :=
    if status ≠ "all" then data.filter (fun opp => opp.status = status) else data
  opportunities.insertionSort createdDesc

/-- The `ref.child(key).update({"status": status})` write applied to one
record: only the `status` field changes. -/
def setStatus (opp : Opp) (status : String) : Opp := { opp with status := status }

/-- The linear scan of `update_opportunity_status`: update the first record
whose `id` field equals `opportunity_id`, or report `none` if there is none. -/
def updateFirst (opportunity_id status : String) : List Opp → Option (List Opp)
  | [] => none
  | opp :: rest =>
    if opp.id = opportunity_id then some (setStatus opp status :: rest)
    else (updateFirst opportunity_id status rest).map (opp :: ·)

/-- `update_opportunity_status` (`opportunity_matcher.py`, lines 110-128):
returns whether a record with the given `id` was found, together with the
resulting store (unchanged when not found, which also covers the
`if not data: return False` branch). -/
def update_opportunity_status (community opportunity_id status : String)
    (store : OppStore) : Bool × OppStore :=
  match updateFirst opportunity_id status (store community) with
  | none => (false, store)
  | some updated => (true, fun c => if c = community then updated else store c)

/-! ## User profile store -/

/-- The `user_profiles/{username}` collection. -/
def ProfileStore := String → Option UserProfile

/-- `update_user_profile` (`opportunity_matcher.py`, lines 135-173): builds the
profile record verbatim from its arguments (`bio or ""` for the bio) and fully
overwrites `user_profiles/{username}`.  `now` is `datetime.now().isoformat()`.
Models the successful-write path, on which the function returns `True`. -/
def update_user_profile (username : String) (skills interests : List String)
    (bio : Option String) (tags : List String) (metadata : List (String × String))
    (now : String) (store : ProfileStore) : ProfileStore :=
  let profile : UserProfile :=
    { username := username, skills := skills, interests := interests,
      tags := tags, bio := bio.getD "", metadata := metadata, updated_at := now }
  fun u => if u = username then some profile else store u

/-! ## Recommendation ranker, dynamic catalog -/

/-- A scored entry `{"opportunity": opp, "match_score": round(score, 3)}`. -/
structure DynResult where
  opportunity : Opp
  match_score : ℚ
deriving Repr, DecidableEq

/-- Python `round(x, 3)` (round-half-even only differs at exact ties of the
fourth decimal, which no claim depends on; modelled round-half-up). -/
def round3 (q : ℚ) : ℚ := (round (q * 1000) : ℚ) / 1000

/-- Sort relation for `scored.sort(key=lambda x: x["match_score"],
reverse=True)`. -/
def dynScoreDesc (a b : DynResult) : Prop := b.match_score ≤ a.match_score

instance : DecidableRel dynScoreDesc := fun a b =>
  inferInstanceAs (Decidable (b.match_score ≤ a.match_score))

instance : IsTotal DynResult dynScoreDesc :=
  ⟨fun a b => le_total b.match_score a.match_score⟩

instance : IsTrans DynResult dynScoreDesc :=
  ⟨fun _ _ _ h1 h2 => le_trans h2 h1⟩

/-- `match_opportunities` (`opportunity_matcher.py`, lines 261-305) after the
profile and activity lookups: scores every active opportunity of the
community, sorts by score descending and truncates to `top_k`.  `activity` is
the user's stored activity-content log, of which the fetch takes the last 50
records. -/
def match_opportunities (sim : String → String → ℚ) (user_profile : UserProfile)
    (activity : List String) (community : String) (top_k : ℕ)
    (store : OppStore) : List DynResult :=
  let user_activity := pyLastN 50 activity
  let opportunities := get_opportunities community "active" 50 store
  let scored := opportunities.map (fun opp =>
    { opportunity := opp,
      match_score := round3 (calculate_match_score sim opp user_profile user_activity) })
  (scored.insertionSort dynScoreDesc).take top_k

/-- `get_opportunity_recommendations` (`opportunity_matcher.py`,
lines 308-320): `match_opportunities` with `top_k = 10`, then the
`min_score` filter. -/
def get_opportunity_recommendations (sim : String → String → ℚ)
    (user_profile : UserProfile) (activity : List String) (community : String)
    (min_score : ℚ) (store : OppStore) : List DynResult :=
  let found := match_opportunities sim user_profile activity community 10 store
  found.filter (fun m => min_score ≤ m.match_score)

/-! ## Recommendation ranker, static catalog -/

/-- An entry of the list built by `get_personalized_opportunities`
(`personalized_opportunities.py`, lines 404-414).  The Python dict key
`'match'` is a reserved word in Lean and is embedded as `match_score`. -/
structure StaticResult where
  title : String := ""
  type : String := ""
  category : String := ""
  description : String := ""
  company : String := ""
  match_score : ℤ := 0
  urgency : String := ""
  urgency_icon : String := ""
  urgency_days : ℕ := 0
deriving Repr, DecidableEq

/-- `get_urgency_text` (`personalized_opportunities.py`, lines 379-388).
`fmtDate` stands for `(datetime.now() + timedelta(days=days)).strftime('%b %d')`,
a pure function of `days` once the current date is fixed. -/
def get_urgency_text (fmtDate : ℕ → String) (days : ℕ) : String × String :=
  if days ≤ 3 then ("Urgent: " ++ toString days ++ " days left", "🔴")
  else if days ≤ 7 then ("Apply before " ++ fmtDate days, "🟡")
  else if days ≤ 14 then ("Deadline in " ++ toString days ++ " days", "🟢")
  else ("Open until " ++ fmtDate days, "🔵")

/-- The result record appended for one opportunity of score `score`
(`personalized_opportunities.py`, lines 402-414). -/
def mkStaticResult (fmtDate : ℕ → String) (opp : OppTemplate) (score : ℤ) :
    StaticResult :=
  let u := get_urgency_text fmtDate opp.urgency_days
  { title := opp.title, type := opp.type, category := opp.category,
    description := opp.description, company := opp.company,
    match_score := score, urgency := u.1, urgency_icon := u.2,
    urgency_days := opp.urgency_days }

/-- Sort relation for `scored.sort(key=lambda x: (-x['match'],
x['urgency_days']))`: non-strict lexicographic order on the key. -/
def staticKeyLe (a b : StaticResult) : Prop :=
  b.match_score < a.match_score ∨
    (a.match_score = b.match_score ∧ a.urgency_days ≤ b.urgency_days)

instance : DecidableRel staticKeyLe := fun a b => by
  unfold staticKeyLe; infer_instance

instance : IsTotal StaticResult staticKeyLe := by
  constructor
  intro a b
  unfold staticKeyLe
  omega

instance : IsTrans StaticResult staticKeyLe := by
  constructor
  intro a b c h1 h2
  unfold staticKeyLe at *
  omega

/-- `get_personalized_opportunities` (`personalized_opportunities.py`,
lines 391-419).  The Python function iterates the module constant
`OPPORTUNITY_DATABASE`; the catalog is taken as the argument `database` so the
theorems below hold for every catalog, that one included.  `jitter` gives, per
record, the sampled `random.randint(-3, 3)` of its single scorer call, so both
sides of a refinement statement see identical scores. -/
def get_personalized_opportunities (jitter : OppTemplate → ℤ)
    (fmtDate : ℕ → String) (user_profile : UserProfile) (top_n : ℕ)
    (min_score : ℤ) (database : List OppTemplate) : List StaticResult :=
  let scored := (database.filter (fun opp =>
      min_score ≤ calculate_match_score_tagged (jitter opp) user_profile opp)).map
    (fun opp => mkStaticResult fmtDate opp
      (calculate_match_score_tagged (jitter opp) user_profile opp))
  (scored.insertionSort staticKeyLe).take top_n

/-- The pipeline as the spec describes it: score every catalog opportunity,
sort by `(-match_score, urgency_days)`, truncate to the first `top_n`, and only
then discard the entries scoring below `min_score`. -/
def rank_then_threshold (jitter : OppTemplate → ℤ) (fmtDate : ℕ → String)
    (user_profile : UserProfile) (top_n : ℕ) (min_score : ℤ)
    (database : List OppTemplate) : List StaticResult :=
  let scored := database.map (fun opp => mkStaticResult fmtDate opp
    (calculate_match_score_tagged (jitter opp) user_profile opp))
  (((scored.insertionSort staticKeyLe).take top_n).filter
    (fun r => min_score ≤ r.match_score))

/-! ## Stable-sort lemmas

Python's `list.sort` is stable, so filtering by any predicate commutes with
sorting, and — when the predicate is anti-monotone along the sort order —
filtering also commutes with truncation.  These lemmas carry claims C3 and C7. -/

section SortLemmas

variable {α : Type} (r : α → α → Prop) [DecidableRel r] (p : α → Bool)

theorem orderedInsert_of_forall_rel (a : α) :
    ∀ l : List α, (∀ x ∈ l, r a x) → l.orderedInsert r a = a :: l
  | [], _ => rfl
  | b :: l, h => by
    rw [List.orderedInsert, if_pos (h b (List.mem_cons_self b l))]

theorem filter_orderedInsert_of_pos [IsTrans α r] (a : α) (hp : p a = true) :
    ∀ l : List α, l.Sorted r →
      (l.orderedInsert r a).filter p = (l.filter p).orderedInsert r a
  | [], _ => by simp [List.orderedInsert, hp]
  | b :: l, hs => by
    rw [List.orderedInsert]
    by_cases hab : r a b
    · rw [if_pos hab, List.filter_cons, List.filter_cons, if_pos hp]
      by_cases hpb : p b = true
      · rw [if_pos hpb, List.orderedInsert, if_pos hab]
      · rw [if_neg hpb]
        have hall : ∀ x ∈ l.filter p, r a x := by
          intro x hx
          exact Trans.trans hab (List.rel_of_sorted_cons hs x (List.mem_of_mem_filter hx))
        rw [orderedInsert_of_forall_rel r a _ hall]
    · rw [if_neg hab, List.filter_cons, List.filter_cons]
      by_cases hpb : p b = true
      · rw [if_pos hpb, if_pos hpb,
          filter_orderedInsert_of_pos a hp l hs.of_cons, List.orderedInsert, if_neg hab]
      · rw [if_neg hpb, if_neg hpb, filter_orderedInsert_of_pos a hp l hs.of_cons]

theorem filter_orderedInsert_of_neg (a : α) (hp : ¬ p a = true) :
    ∀ l : List α, (l.orderedInsert r a).filter p = l.filter p
  | [] => by
    rw [List.orderedInsert_nil, List.filter_cons, if_neg hp, List.filter_nil]
  | b :: l => by
    rw [List.orderedInsert]
    by_cases hab : r a b
    · rw [if_pos hab, List.filter_cons, if_neg hp]
    · rw [if_neg hab, List.filter_cons, List.filter_cons,
        filter_orderedInsert_of_neg a hp l]

theorem filter_insertionSort [IsTotal α r] [IsTrans α r] :
    ∀ l : List α, (l.insertionSort r).filter p = (l.filter p).insertionSort r
  | [] => rfl
  | a :: l => by
    rw [List.insertionSort, List.filter_cons]
    by_cases hpa : p a = true
    · rw [if_pos hpa,
        filter_orderedInsert_of_pos r p a hpa _ (List.sorted_insertionSort r l),
        filter_insertionSort l, List.insertionSort]
    · rw [if_neg hpa, filter_orderedInsert_of_neg r p a hpa _, filter_insertionSort l]

omit [DecidableRel r] in
theorem filter_take_of_sorted (anti : ∀ x y, r x y → p y = true → p x = true) :
    ∀ (l : List α) (n : ℕ), l.Sorted r → (l.take n).filter p = (l.filter p).take n
  | [], _, _ => by simp
  | a :: l, 0, _ => by simp
  | a :: l, n + 1, hs => by
    rw [List.take_succ_cons, List.filter_cons, List.filter_cons]
    by_cases hpa : p a = true
    · rw [if_pos hpa, if_pos hpa, List.take_succ_cons,
        filter_take_of_sorted anti l n hs.of_cons]
    · rw [if_neg hpa, if_neg hpa]
      have hnil : l.filter p = [] := by
        apply List.filter_eq_nil_iff.mpr
        intro x hx hpx
        exact hpa (anti a x (List.rel_of_sorted_cons hs x hx) hpx)
      have hnil2 : (l.take n).filter p = [] := by
        apply List.filter_eq_nil_iff.mpr
        intro x hx hpx
        exact hpa (anti a x (List.rel_of_sorted_cons hs x (List.mem_of_mem_take hx)) hpx)
      rw [hnil, hnil2, List.take_nil]

end SortLemmas

/-! ## Lemmas about the `update_opportunity_status` linear scan -/

theorem updateFirst_eq_none (oid s : String) :
    ∀ l : List Opp, (∀ o ∈ l, o.id ≠ oid) → updateFirst oid s l = none
  | [], _ => rfl
  | o :: rest, h => by
    rw [updateFirst, if_neg (h o (List.mem_cons_self o rest)),
      updateFirst_eq_none oid s rest (fun x hx => h x (List.mem_cons_of_mem o hx))]
    rfl

theorem updateFirst_isSome (oid s : String) :
    ∀ l : List Opp, (∃ o ∈ l, o.id = oid) → ∃ l', updateFirst oid s l = some l'
  | [], h => absurd h (by simp)
  | o :: rest, h => by
    rw [updateFirst]
    by_cases ho : o.id = oid
    · exact ⟨_, by rw [if_pos ho]⟩
    · rw [if_neg ho]
      obtain ⟨x, hx, hxid⟩ := h
      rcases List.mem_cons.mp hx with rfl | hxr
      · exact absurd hxid ho
      · obtain ⟨l', hl'⟩ := updateFirst_isSome oid s rest ⟨x, hxr, hxid⟩
        exact ⟨o :: l', by rw [hl']; rfl⟩

/-- Writing a record's current status back leaves the record unchanged. -/
theorem setStatus_self (o : Opp) (s : String) (h : o.status = s) : setStatus o s = o := by
  cases o
  simp only [setStatus]
  simp_all

theorem updateFirst_of_status_already (oid s : String) :
    ∀ l : List Opp, (∀ o ∈ l, o.id = oid → o.status = s) →
      updateFirst oid s l = none ∨ updateFirst oid s l = some l
  | [], _ => Or.inl rfl
  | o :: rest, h => by
    rw [updateFirst]
    by_cases ho : o.id = oid
    · rw [if_pos ho, setStatus_self o s (h o (List.mem_cons_self o rest) ho)]
      exact Or.inr rfl
    · rw [if_neg ho]
      rcases updateFirst_of_status_already oid s rest
          (fun x hx => h x (List.mem_cons_of_mem o hx)) with hn | hs'
      · rw [hn]; exact Or.inl rfl
      · rw [hs']; exact Or.inr rfl

theorem updateFirst_some_spec (oid s : String) :
    ∀ (l l' : List Opp), updateFirst oid s l = some l' →
      ∃ i : ℕ, ∃ h : i < l.length,
        (l.get ⟨i, h⟩).id = oid ∧
        (∀ j (hj : j < l.length), j < i → (l.get ⟨j, hj⟩).id ≠ oid) ∧
        l' = l.set i (setStatus (l.get ⟨i, h⟩) s)
  | [], l', h => by simp [updateFirst] at h
  | o :: rest, l', h => by
    rw [updateFirst] at h
    by_cases ho : o.id = oid
    · rw [if_pos ho] at h
      refine ⟨0, by simp, ho, ?_, ?_⟩
      · intro j hj hj0
        omega
      · simpa using (Option.some_injective _ h).symm
    · rw [if_neg ho] at h
      obtain ⟨m, hm, rfl⟩ := Option.map_eq_some'.mp h
      obtain ⟨i, hi, hid, hbefore, hset⟩ := updateFirst_some_spec oid s rest m hm
      refine ⟨i + 1, by simpa using Nat.succ_lt_succ hi, ?_, ?_, ?_⟩
      · simpa using hid
      · intro j hj hji
        cases j with
        | zero => simpa using ho
        | succ k =>
          have hk : k < rest.length := by simp at hj; omega
          have := hbefore k hk (by omega)
          simpa using this
      · rw [hset]
        rfl

/-! ## Claims C1, C2, C5, C6 — the two scorers -/

theorem scoreAndMax_nonneg (u : UserProfile) (t : OppTemplate) :
    0 ≤ (scoreAndMax u t).1 ∧ 0 ≤ (scoreAndMax u t).2 := by
  simp only [scoreAndMax]
  constructor <;> (split_ifs <;> simp <;> positivity)

/-- C1 (amended): the dynamic-catalog scorer returns a value in `[0, 1]`
whenever the similarity ratio stays in its documented range `[0, 1]`; the
tag-weighted scorer's post-jitter result is an integer in `[0, 100]` for every
jitter; and its pre-jitter result is a non-negative integer — but, contrary to
the claim as stated, the pre-jitter result is not bounded by 100 and the tag
component's contribution is not bounded by its weight 50, because duplicate
occurrences in the user's tag list are each counted
(see `C1_counterexample`). -/
theorem C1_score_bounds :
    (∀ (sim : String → String → ℚ) (o : Opp) (u : UserProfile) (a : List String),
      (∀ x y, 0 ≤ sim x y ∧ sim x y ≤ 1) →
      0 ≤ calculate_match_score sim o u a ∧ calculate_match_score sim o u a ≤ 1) ∧
    (∀ (j : ℤ) (u : UserProfile) (t : OppTemplate),
      0 ≤ calculate_match_score_tagged j u t ∧ calculate_match_score_tagged j u t ≤ 100) ∧
    (∀ (u : UserProfile) (t : OppTemplate), 0 ≤ preJitterScore u t) := by
  refine ⟨?_, ?_, ?_⟩
  · intro sim o u a hsim
    constructor
    · rw [calculate_match_score]
      apply le_min _ zero_le_one
      have h1 : 0 ≤ skillsComponent o u := by
        rw [skillsComponent]; split_ifs <;> positivity
      have h2 : 0 ≤ interestComponent o u := by
        rw [interestComponent]; split_ifs <;> positivity
      have h3 : 0 ≤ activityComponent sim o a := by
        rw [activityComponent]; split_ifs
        · have := (hsim (pyLower (joinSpace (pyLastN 20 a))) (pyLower o.description)).1
          positivity
        · exact le_refl 0
      have h4 : 0 ≤ bioComponent sim o u := by
        rw [bioComponent]; split_ifs
        · have := (hsim (pyLower u.bio) (pyLower o.description)).1
          positivity
        · exact le_refl 0
      linarith
    · exact min_le_right _ _
  · intro j u t
    rw [calculate_match_score_tagged]
    exact ⟨le_max_left 0 _, max_le (by norm_num) (min_le_left _ _)⟩
  · intro u t
    rw [preJitterScore]
    split_ifs with h
    · apply Int.floor_nonneg.mpr
      have h1 := (scoreAndMax_nonneg u t).1
      positivity
    · exact le_refl 0

/-- C1, refuting input: for the user profile `{tags: ["ai", "ai"]}` against an
opportunity template `{tags: ["ai"]}` (no skills/interests/bio), the tag
component contributes `(2/1)*50 = 100 > 50` — the duplicate user tag is
double-counted — and the pre-jitter result is `int((100/50)*100) = 200`,
outside `[0, 100]`. -/
theorem C1_counterexample :
    (scoreAndMax { tags := ["ai", "ai"] } { tags := ["ai"] }).1 = 100 ∧
    preJitterScore { tags := ["ai", "ai"] } { tags := ["ai"] } = 200 ∧
    ¬ preJitterScore { tags := ["ai", "ai"] } { tags := ["ai"] } ≤ 100 := by
  have h : scoreAndMax { tags := ["ai", "ai"] } { tags := ["ai"] } = (100, 50) := by
    show ((((2:ℕ):ℚ) / ((1:ℕ):ℚ) * 50 + 0 + 0 + 0, (50:ℚ) + 0 + 0 + 0) : ℚ × ℚ) = (100, 50)
    norm_num
  have h200 : preJitterScore { tags := ["ai", "ai"] } { tags := ["ai"] } = 200 := by
    rw [preJitterScore, h]
    norm_num
  exact ⟨by rw [h], h200, by rw [h200]; decide⟩

/-- C1 witness: the bounds instantiated at a concrete similarity function,
profile, opportunity and activity log. -/
theorem C1_score_bounds_witness :
    (0 ≤ calculate_match_score (fun _ _ => 1/2)
        { tags := ["web"], requirements := ["python"], description := "build apps" }
        { skills := ["python"], interests := ["web"], bio := "coder" } ["hello world"] ∧
      calculate_match_score (fun _ _ => 1/2)
        { tags := ["web"], requirements := ["python"], description := "build apps" }
        { skills := ["python"], interests := ["web"], bio := "coder" } ["hello world"] ≤ 1) ∧
    0 ≤ preJitterScore { tags := ["ai"] } { tags := ["ai"] } :=
  ⟨C1_score_bounds.1 (fun _ _ => 1/2) _ _ _ (fun _ _ => by norm_num),
   C1_score_bounds.2.2 _ _⟩

/-- C2 (amended): when at least one component is applicable
(`max_score > 0`), the pre-jitter result of the tag-weighted scorer equals
`int(score / max_score * 100)` — value **truncated** toward zero (the floor,
as all values are non-negative), not rounded to nearest; consequently the
profile `{tags: ["ai","python"]}` against the template
`{tags: ["ai","ml","python"]}` with no skills/interests/bio scores
`int((100/3)/50*100) = int(66.67) = 66` pre-jitter, not 67
(see `C2_counterexample`). -/
theorem C2_truncated_percentage :
    (∀ (u : UserProfile) (t : OppTemplate), 0 < (scoreAndMax u t).2 →
      preJitterScore u t = ⌊(scoreAndMax u t).1 / (scoreAndMax u t).2 * 100⌋) ∧
    preJitterScore { tags := ["ai", "python"] } { tags := ["ai", "ml", "python"] } = 66 := by
  constructor
  · intro u t h
    rw [preJitterScore, if_pos h]
  · have h : scoreAndMax { tags := ["ai", "python"] } { tags := ["ai", "ml", "python"] }
        = (100/3, 50) := by
      show ((((2:ℕ):ℚ) / ((3:ℕ):ℚ) * 50 + 0 + 0 + 0, (50:ℚ) + 0 + 0 + 0) : ℚ × ℚ)
        = (100/3, 50)
      norm_num
    rw [preJitterScore, h]
    norm_num [Int.floor_eq_iff]

/-- C2, refuting input: the claim's own scenario.  The code computes
`int((33.33/50)*100) = 66`; the claim (via `round`) predicts 67. -/
theorem C2_counterexample :
    preJitterScore { tags := ["ai", "python"] } { tags := ["ai", "ml", "python"] } = 66 ∧
    preJitterScore { tags := ["ai", "python"] } { tags := ["ai", "ml", "python"] } ≠ 67 := by
  have h : scoreAndMax { tags := ["ai", "python"] } { tags := ["ai", "ml", "python"] }
      = (100/3, 50) := by
    show ((((2:ℕ):ℚ) / ((3:ℕ):ℚ) * 50 + 0 + 0 + 0, (50:ℚ) + 0 + 0 + 0) : ℚ × ℚ)
      = (100/3, 50)
    norm_num
  have h66 : preJitterScore { tags := ["ai", "python"] } { tags := ["ai", "ml", "python"] }
      = 66 := by
    rw [preJitterScore, h]
    norm_num [Int.floor_eq_iff]
  exact ⟨h66, by rw [h66]; decide⟩

/-- C2 witness: the truncation formula instantiated at the scenario input,
whose `max_score` is `50 > 0`. -/
theorem C2_truncated_percentage_witness :
    0 < (scoreAndMax { tags := ["ai", "python"] } { tags := ["ai", "ml", "python"] }).2 ∧
    preJitterScore { tags := ["ai", "python"] } { tags := ["ai", "ml", "python"] }
      = ⌊(scoreAndMax { tags := ["ai", "python"] } { tags := ["ai", "ml", "python"] }).1
          / (scoreAndMax { tags := ["ai", "python"] } { tags := ["ai", "ml", "python"] }).2
          * 100⌋ := by
  have h : scoreAndMax { tags := ["ai", "python"] } { tags := ["ai", "ml", "python"] }
      = (100/3, 50) := by
    show ((((2:ℕ):ℚ) / ((3:ℕ):ℚ) * 50 + 0 + 0 + 0, (50:ℚ) + 0 + 0 + 0) : ℚ × ℚ)
      = (100/3, 50)
    norm_num
  have hpos : 0 < (scoreAndMax { tags := ["ai", "python"] }
      { tags := ["ai", "ml", "python"] }).2 := by
    rw [h]; norm_num
  exact ⟨hpos, C2_truncated_percentage.1 _ _ hpos⟩

/-- C5: in the dynamic-catalog scorer the skills component equals the number
of (distinct, case-folded) opportunity requirements appearing among the user's
skills, divided by the number of (distinct, case-folded) requirements, times
the weight `0.4`; it is 0 when the opportunity declares no requirements; and
the profile `{skills: ["python"]}` with no activity scored against
`{requirements: ["python", "sql"], tags: []}` yields exactly `0.20`. -/
theorem C5_skills_component :
    (∀ (o : Opp) (u : UserProfile), o.requirements = [] → skillsComponent o u = 0) ∧
    (∀ (o : Opp) (u : UserProfile), lowerSet o.requirements ≠ ∅ →
      skillsComponent o u =
        ((lowerSet u.skills ∩ lowerSet o.requirements).card : ℚ)
          / ((lowerSet o.requirements).card : ℚ) * 0.4) ∧
    (∀ sim : String → String → ℚ,
      calculate_match_score sim
        { requirements := ["python", "sql"], tags := [] }
        { skills := ["python"], interests := [], tags := [], bio := "" } [] = 0.20) := by
  refine ⟨?_, ?_, ?_⟩
  · intro o u h
    simp only [skillsComponent, h]
    simp [lowerSet]
  · intro o u h
    simp only [skillsComponent, if_pos h]
  · intro sim
    rw [calculate_match_score]
    have h1 : skillsComponent
        { requirements := ["python", "sql"], tags := [] }
        { skills := ["python"], interests := [], tags := [], bio := "" }
        = ((1:ℕ):ℚ)/((2:ℕ):ℚ)*0.4 := rfl
    have h2 : interestComponent
        { requirements := ["python", "sql"], tags := [] }
        { skills := ["python"], interests := [], tags := [], bio := "" } = 0 := rfl
    have h3 : activityComponent sim
        { requirements := ["python", "sql"], tags := [] } [] = 0 := rfl
    have h4 : bioComponent sim
        { requirements := ["python", "sql"], tags := [] }
        { skills := ["python"], interests := [], tags := [], bio := "" } = 0 := rfl
    rw [h1, h2, h3, h4]
    norm_num

/-- C5 witness: both guarded cases and the end-to-end scenario at concrete
inputs. -/
theorem C5_skills_component_witness :
    skillsComponent { requirements := [] } { skills := ["python"] } = 0 ∧
    calculate_match_score (fun _ _ => 0)
      { requirements := ["python", "sql"], tags := [] }
      { skills := ["python"], interests := [], tags := [], bio := "" } [] = 0.20 :=
  ⟨C5_skills_component.1 _ _ rfl, C5_skills_component.2.2 _⟩

/-- C6: extending the user's skills with a skill drawn from the opportunity's
requirements never decreases the skills sub-score
(`skills_overlap / len(opp_requirements)`) nor the weighted skills component
of the dynamic-catalog scorer. -/
theorem C6_skills_monotone :
    ∀ (o : Opp) (u : UserProfile) (s : String), s ∈ o.requirements →
      ((lowerSet u.skills ∩ lowerSet o.requirements).card : ℚ)
          / ((lowerSet o.requirements).card : ℚ)
        ≤ ((lowerSet (s :: u.skills) ∩ lowerSet o.requirements).card : ℚ)
          / ((lowerSet o.requirements).card : ℚ) ∧
      skillsComponent o u ≤ skillsComponent o { u with skills := s :: u.skills } := by
  intro o u s _
  have hsub : lowerSet u.skills ∩ lowerSet o.requirements
      ⊆ lowerSet (s :: u.skills) ∩ lowerSet o.requirements := by
    apply Finset.inter_subset_inter _ (Finset.Subset.refl _)
    intro x hx
    simp only [lowerSet, List.map_cons, List.toFinset_cons]
    exact Finset.mem_insert_of_mem (by simpa [lowerSet] using hx)
  have hcard := Finset.card_le_card hsub
  constructor
  · gcongr
  · simp only [skillsComponent]
    split_ifs with h
    · gcongr
    · exact le_refl 0

/-- C6 witness: adding the matching skill `"sql"` at a concrete profile and
opportunity. -/
theorem C6_skills_monotone_witness :
    skillsComponent { requirements := ["python", "sql"] } { skills := ["python"] }
      ≤ skillsComponent { requirements := ["python", "sql"] }
          { skills := ["sql", "python"] } := by
  have := (C6_skills_monotone { requirements := ["python", "sql"] }
    { skills := ["python"] } "sql" (by decide)).2
  exact this

/-! ## Claims C4 and C8 — profile writes and status updates -/

/-- C4, refuting input: `update_user_profile` stores the tag `" AI "` exactly
as passed; the lower-cased and trimmed form would be `"ai"`, so the stored
tags differ from the claim's normalized form. -/
theorem C4_counterexample :
    (update_user_profile "u" [] [] none [" AI "] [] "t0" (fun _ => none)) "u"
      = some { username := "u", skills := [], interests := [], tags := [" AI "],
               bio := "", metadata := [], updated_at := "t0" } ∧
    [" AI "].map (fun s => pyStrip (pyLower s)) = ["ai"] ∧
    ([" AI "] : List String) ≠ ["ai"] := by
  refine ⟨?_, by decide, by decide⟩
  simp only [update_user_profile, if_pos, Option.getD]

/-- C4 (amended): on a successful write, `update_user_profile` stores the
input tags exactly as passed — no lower-casing or trimming happens inside the
function (normalization is done by the UI caller before the call, and by the
tag-weighted scorer at read time) — and leaves every other user's profile
unchanged. -/
theorem C4_tags_stored_verbatim :
    ∀ (username : String) (skills interests : List String) (bio : Option String)
      (tags : List String) (metadata : List (String × String)) (now : String)
      (store : ProfileStore),
      (update_user_profile username skills interests bio tags metadata now store) username
        = some { username := username, skills := skills, interests := interests,
                 tags := tags, bio := bio.getD "", metadata := metadata,
                 updated_at := now } ∧
      (∀ u, u ≠ username →
        (update_user_profile username skills interests bio tags metadata now store) u
          = store u) := by
  intro username skills interests bio tags metadata now store
  constructor
  · simp only [update_user_profile, if_pos]
  · intro u hu
    simp only [update_user_profile, if_neg hu]

/-- C4 witness: a concrete write, read back for the written user and for
another user. -/
theorem C4_tags_stored_verbatim_witness :
    (update_user_profile "u" ["s"] ["i"] (some "b") ["Tag"] [] "t1" (fun _ => none)) "u"
      = some { username := "u", skills := ["s"], interests := ["i"], tags := ["Tag"],
               bio := (some "b").getD "", metadata := [], updated_at := "t1" } ∧
    (update_user_profile "u" ["s"] ["i"] (some "b") ["Tag"] [] "t1" (fun _ => none)) "v"
      = none :=
  ⟨(C4_tags_stored_verbatim "u" ["s"] ["i"] (some "b") ["Tag"] [] "t1" (fun _ => none)).1,
   (C4_tags_stored_verbatim "u" ["s"] ["i"] (some "b") ["Tag"] [] "t1" (fun _ => none)).2
     "v" (by decide)⟩

/-- C8: `update_opportunity_status` returns `false` and leaves the store
unchanged when no record of the community has the given `id`; returns `true`
when one exists; and setting a status to its current value leaves the store
unchanged while still returning `true` (idempotence). -/
theorem C8_status_update :
    ∀ (community oid status : String) (store : OppStore),
      ((∀ o ∈ store community, o.id ≠ oid) →
        update_opportunity_status community oid status store = (false, store)) ∧
      ((∃ o ∈ store community, o.id = oid) →
        (update_opportunity_status community oid status store).1 = true) ∧
      ((∃ o ∈ store community, o.id = oid) →
        (∀ o ∈ store community, o.id = oid → o.status = status) →
        update_opportunity_status community oid status store = (true, store)) := by
  intro community oid status store
  refine ⟨?_, ?_, ?_⟩
  · intro h
    rw [update_opportunity_status, updateFirst_eq_none oid status _ h]
  · intro h
    obtain ⟨l', hl'⟩ := updateFirst_isSome oid status _ h
    rw [update_opportunity_status, hl']
  · intro hex hall
    obtain ⟨l', hl'⟩ := updateFirst_isSome oid status _ hex
    rcases updateFirst_of_status_already oid status _ hall with hn | hsame
    · rw [hn] at hl'; cases hl'
    · rw [update_opportunity_status, hsame]
      show (true, fun c => if c = community then store community else store c) = (true, store)
      refine congrArg (Prod.mk true) ?_
      funext c
      by_cases hc : c = community
      · subst hc; rw [if_pos rfl]
      · rw [if_neg hc]

/-- C8 witness: a one-record store — a missing id reports `false` with the
store untouched, and re-asserting the record's current status reports `true`
with the store untouched. -/
theorem C8_status_update_witness :
    update_opportunity_status "c" "y" "closed"
        (fun c => if c = "c" then [{ id := "x", status := "active" }] else [])
      = (false, fun c => if c = "c" then [{ id := "x", status := "active" }] else []) ∧
    update_opportunity_status "c" "x" "active"
        (fun c => if c = "c" then [{ id := "x", status := "active" }] else [])
      = (true, fun c => if c = "c" then [{ id := "x", status := "active" }] else []) :=
  ⟨(C8_status_update "c" "y" "closed" _).1 (by decide),
   (C8_status_update "c" "x" "active" _).2.2 (by decide) (by decide)⟩
/-- C10: when `update_opportunity_status` finds a matching record, it was the
first record whose `id` matches, the community's collection is that list with
only that record's `status` field replaced (`List.set` at that index with
`setStatus`, which preserves every other field — id, title, description,
category, tags, requirements, deadline, posted_by, metadata, created_at), and
every other community's collection is untouched. -/
theorem C10_frame : ∀ (community oid status : String) (store : OppStore),
    (update_opportunity_status community oid status store).1 = true →
      (∃ i : ℕ, ∃ h : i < (store community).length,
        ((store community).get ⟨i, h⟩).id = oid ∧
        (∀ j (hj : j < (store community).length), j < i →
          ((store community).get ⟨j, hj⟩).id ≠ oid) ∧
        (update_opportunity_status community oid status store).2 community
          = (store community).set i (setStatus ((store community).get ⟨i, h⟩) status)) ∧
      (∀ c, c ≠ community →
        (update_opportunity_status community oid status store).2 c = store c) ∧
      (∀ (o : Opp) (s : String),
        (setStatus o s).id = o.id ∧ (setStatus o s).title = o.title ∧
        (setStatus o s).description = o.description ∧
        (setStatus o s).category = o.category ∧ (setStatus o s).tags = o.tags ∧
        (setStatus o s).requirements = o.requirements ∧
        (setStatus o s).deadline = o.deadline ∧
        (setStatus o s).posted_by = o.posted_by ∧
        (setStatus o s).metadata = o.metadata ∧
        (setStatus o s).created_at = o.created_at ∧
        (setStatus o s).status = s) := by
  intro community oid status store htrue
  rw [update_opportunity_status] at htrue ⊢
  rcases hup : updateFirst oid status (store community) with _ | l'
  · rw [hup] at htrue; cases htrue
  · obtain ⟨i, hi, hid, hbefore, hset⟩ := updateFirst_some_spec oid status _ l' hup
    refine ⟨⟨i, hi, hid, hbefore, ?_⟩, ?_, ?_⟩
    · show (if community = community then l' else store community) = _
      rw [if_pos rfl, hset]
    · intro c hc
      show (if c = community then l' else store c) = store c
      rw [if_neg hc]
    · intro o s
      exact ⟨rfl, rfl, rfl, rfl, rfl, rfl, rfl, rfl, rfl, rfl, rfl⟩


/-- C10 witness: a successful status update on a one-record store, with the
frame property read off for another community. -/
theorem C10_frame_witness :
    (update_opportunity_status "c" "x" "closed"
        (fun c => if c = "c" then [{ id := "x", status := "active" }] else [])).1 = true ∧
    (update_opportunity_status "c" "x" "closed"
        (fun c => if c = "c" then [{ id := "x", status := "active" }] else [])).2 "other"
      = (fun c => if c = "c" then [{ id := "x", status := "active" }] else []) "other" :=
  ⟨by decide,
   (C10_frame "c" "x" "closed" _ (by decide)).2.1 "other" (by decide)⟩

/-! ## Claims C7 and C9 — listing, ordering and scope isolation -/

theorem mem_store_of_mem_get (community status : String) (limit : ℕ) (store : OppStore)
    (o : Opp) (ho : o ∈ get_opportunities community status limit store) :
    o ∈ store community := by
  simp only [get_opportunities] at ho
  split_ifs at ho with h
  · have h1 := (List.mem_insertionSort _).mp ho
    have h2 := List.mem_of_mem_filter h1
    exact List.mem_of_mem_drop h2
  · have h1 := (List.mem_insertionSort _).mp ho
    exact List.mem_of_mem_drop h1

/-- End-to-end scenario 3, first step: one opportunity added to community
`"c"`. -/
def c7Store1 : OppStore :=
  (add_opportunity "c" "t1" "d1" "event" [] [] none none [] "id1"
    "2024-01-01T00:00:00" (fun _ => [])).2

/-- Scenario 3, second opportunity. -/
def c7Store2 : OppStore :=
  (add_opportunity "c" "t2" "d2" "event" [] [] none none [] "id2"
    "2024-01-02T00:00:00" c7Store1).2

/-- Scenario 3, third opportunity. -/
def c7Store3 : OppStore :=
  (add_opportunity "c" "t3" "d3" "event" [] [] none none [] "id3"
    "2024-01-03T00:00:00" c7Store2).2

/-- Scenario 3, closing exactly the second opportunity. -/
def c7Closed : Bool × OppStore := update_opportunity_status "c" "id2" "closed" c7Store3

/-- C7: with a status filter other than `"all"`, every returned opportunity
has exactly that status; the returned list is always ordered by `created_at`
descending; and after creating three opportunities and closing exactly one,
`get_opportunities(community, status="closed")` returns a singleton holding
only the closed opportunity. -/
theorem C7_status_filter_and_order :
    (∀ (community status : String) (limit : ℕ) (store : OppStore), status ≠ "all" →
      ∀ o ∈ get_opportunities community status limit store, o.status = status) ∧
    (∀ (community status : String) (limit : ℕ) (store : OppStore),
      List.Sorted createdDesc (get_opportunities community status limit store)) ∧
    (c7Closed.1 = true ∧
      get_opportunities "c" "closed" 50 c7Closed.2
        = [{ id := "id2", title := "t2", description := "d2", category := "event",
             tags := [], requirements := [], deadline := none, posted_by := none,
             metadata := [], created_at := "2024-01-02T00:00:00",
             status := "closed" }]) := by
  refine ⟨?_, ?_, by decide, by decide⟩
  · intro community status limit store hstatus o ho
    simp only [get_opportunities, if_pos hstatus] at ho
    have h1 := (List.mem_insertionSort _).mp ho
    have h2 := List.of_mem_filter h1
    exact of_decide_eq_true h2
  · intro community status limit store
    simp only [get_opportunities]
    exact List.sorted_insertionSort _ _

/-- C7 witness: the status-filter property read off at the scenario store. -/
theorem C7_status_filter_witness :
    ("closed" : String) ≠ "all" ∧
    ({ id := "id2", title := "t2", description := "d2", category := "event",
       tags := [], requirements := [], deadline := none, posted_by := none,
       metadata := [], created_at := "2024-01-02T00:00:00",
       status := "closed" } : Opp).status = "closed" :=
  ⟨by decide,
   C7_status_filter_and_order.1 "c" "closed" 50 c7Closed.2 (by decide) _ (by decide)⟩

/-- C9: an opportunity added under community `A` is invisible to community
`B ≠ A`: both `get_opportunities` and `match_opportunities` scoped to `B`
return exactly what they returned before the addition, for every status
filter; and — as long as the fresh id does not already occur in `B` — no
listed opportunity of `B` carries the new id. -/
theorem C9_scope_isolation :
    ∀ (A B : String), A ≠ B →
    ∀ (title description category : String) (tags requirements : List String)
      (deadline posted_by : Option String) (metadata : List (String × String))
      (newId now : String) (store : OppStore) (status : String) (limit : ℕ)
      (sim : String → String → ℚ) (u : UserProfile) (act : List String) (k : ℕ),
      get_opportunities B status limit
          (add_opportunity A title description category tags requirements deadline
            posted_by metadata newId now store).2
        = get_opportunities B status limit store ∧
      match_opportunities sim u act B k
          (add_opportunity A title description category tags requirements deadline
            posted_by metadata newId now store).2
        = match_opportunities sim u act B k store ∧
      ((∀ o ∈ store B, o.id ≠ newId) →
        ∀ o ∈ get_opportunities B status limit
            (add_opportunity A title description category tags requirements deadline
              posted_by metadata newId now store).2, o.id ≠ newId) := by
  intro A B hAB title description category tags requirements deadline posted_by
    metadata newId now store status limit sim u act k
  have hB : (add_opportunity A title description category tags requirements deadline
      posted_by metadata newId now store).2 B = store B := by
    simp only [add_opportunity]
    rw [if_neg (Ne.symm hAB)]
  have hget : ∀ (st : String) (lim : ℕ), get_opportunities B st lim
      (add_opportunity A title description category tags requirements deadline
        posted_by metadata newId now store).2
      = get_opportunities B st lim store := by
    intro st lim
    simp only [get_opportunities, hB]
  refine ⟨hget status limit, ?_, ?_⟩
  · simp only [match_opportunities, hget "active" 50]
  · intro hfresh o ho
    rw [hget status limit] at ho
    exact hfresh o (mem_store_of_mem_get B status limit store o ho)

/-- C9 witness: adding under `"a"` leaves `"b"`'s listing unchanged. -/
theorem C9_scope_isolation_witness :
    get_opportunities "b" "active" 50
        (add_opportunity "a" "t" "d" "event" [] [] none none [] "idN" "2024"
          (fun _ => [])).2
      = get_opportunities "b" "active" 50 (fun _ => []) :=
  (C9_scope_isolation "a" "b" (by decide) "t" "d" "event" [] [] none none [] "idN"
    "2024" (fun _ => []) "active" 50 (fun _ _ => 0) {} [] 5).1

/-! ## Claim C3 — threshold after ranking -/

/-- C3: the `min_score` threshold composes after ranking.  Although
`get_personalized_opportunities` tests `score >= min_score` inside its scoring
loop, the stable sort and the score-descending sort key make that equivalent
to scoring the whole catalog, sorting by `(-match_score, urgency_days)`,
truncating to `top_n`, and only then discarding entries below `min_score`
(`rank_then_threshold`).  Likewise `get_opportunity_recommendations` is
exactly `match_opportunities` with `top_k = 10` followed by the `min_score`
filter. -/
theorem C3_threshold_after_ranking :
    (∀ (jitter : OppTemplate → ℤ) (fmtDate : ℕ → String) (user_profile : UserProfile)
      (top_n : ℕ) (min_score : ℤ) (database : List OppTemplate),
      get_personalized_opportunities jitter fmtDate user_profile top_n min_score database
        = rank_then_threshold jitter fmtDate user_profile top_n min_score database) ∧
    (∀ (sim : String → String → ℚ) (user_profile : UserProfile) (activity : List String)
      (community : String) (min_score : ℚ) (store : OppStore),
      get_opportunity_recommendations sim user_profile activity community min_score store
        = (match_opportunities sim user_profile activity community 10 store).filter
            (fun m => min_score ≤ m.match_score)) := by
  constructor
  · intro jitter fmtDate u n min db
    simp only [get_personalized_opportunities, rank_then_threshold]
    have anti : ∀ x y : StaticResult, staticKeyLe x y →
        (fun r : StaticResult => decide (min ≤ r.match_score)) y = true →
        (fun r : StaticResult => decide (min ≤ r.match_score)) x = true := by
      intro x y hxy hpy
      have hy : min ≤ y.match_score := of_decide_eq_true hpy
      apply decide_eq_true
      rcases hxy with h | ⟨h, _⟩
      · omega
      · omega
    have e : (fun opp => decide (min ≤ calculate_match_score_tagged (jitter opp) u opp))
        = ((fun r : StaticResult => decide (min ≤ r.match_score)) ∘
            (fun opp => mkStaticResult fmtDate opp
              (calculate_match_score_tagged (jitter opp) u opp))) := rfl
    rw [e, ← List.filter_map, ← filter_insertionSort]
    exact (filter_take_of_sorted staticKeyLe _ anti _ n
      (List.sorted_insertionSort staticKeyLe _)).symm
  · intro sim u act community min store
    rfl
